import Mathlib

/-!
# Verification of the P2P file-sharing application

Shallow embedding of the two core subsystems of the P2P file transfer
application (signaling relay / device registry on the server, and the
chunked transfer engine plus connection negotiator on the client),
with theorems checking the specification's claims against the code.

Files embedded:
* `src/public/js/app.js` — chunked transfer (sender `sendFile` loop,
  receiver `handleDataChannelMessage` / `finalizeReceivedFile`);
* `src/server.js` (top, relay) — `register`, `connectToDevice`,
  `disconnectPeer`, `disconnect` handlers;
* `src/server.js` (embedded app copy) — the richer transfer engine
  (`handleDataChannelMessage`, `finalizeReceivedFile`, `startFileTransfer`);
* `src/public/js/webrtc-manager.js` — ICE-candidate queueing, offer/answer
  guard flags, send queue and `close`.

Bytes are modelled as `Nat`, byte buffers as `List Nat`; JS `Map` as an
association list with `Map.set` replace-or-append semantics.
-/

namespace P2P

/-! ## Chunked transfer round-trip (app.js)

Sender side, `app.js sendFile` (lines 309–402): the chunk loop is
`while (offset < file.size) { const chunk = file.slice(offset, offset + CHUNK_SIZE);
... await sendData(arrayBuffer); offset += arrayBuffer.byteLength; }`.
Receiver side, `handleDataChannelMessage` binary branch (lines 483–513):
`buffer.push(e.data); receivedSize += e.data.byteLength;`.
Finalization, `finalizeReceivedFile` (lines 662–684): `new Blob(buffer)`,
i.e. the concatenation of the buffered chunks in arrival order. -/

/-- JS `file.slice(start, stop)` on a byte list (for `0 ≤ start ≤ stop`). -/
def fileSlice (file : List Nat) (start stop : Nat) : List Nat :=
  (file.drop start).take (stop - start)

/-- The chunk sequence produced by the sender loop of `app.js sendFile`:
starting at `offset`, repeatedly slice `file.slice(offset, offset + chunkSize)`
and advance `offset` by the actual chunk byte length.  The `0 < chunkSize`
conjunct in the guard makes the recursion total; the source loop does not
terminate for a zero chunk size, and every claim assumes `chunkSize > 0`. -/
def sendFileChunks (chunkSize : Nat) (file : List Nat) (offset : Nat) :
    List (List Nat) :=
  if h : offset < file.length ∧ 0 < chunkSize then
    let chunk := fileSlice file offset (offset + chunkSize)
    chunk :: sendFileChunks chunkSize file (offset + chunk.length)
  else []
termination_by file.length - offset
decreasing_by
  simp only [fileSlice, List.length_take, List.length_drop,
    Nat.add_sub_cancel_left]
  omega

/-- Receiver-side accumulator: the `buffer` array and the running
`receivedSize` of `fileTransferState`. -/
structure RecvAccum where
  buffer : List (List Nat)
  receivedSize : Nat
deriving Repr, DecidableEq

/-- The binary-data branch of `handleDataChannelMessage`:
`buffer.push(e.data); receivedSize += e.data.byteLength`. -/
def recvChunk (st : RecvAccum) (data : List Nat) : RecvAccum :=
  { buffer := st.buffer ++ [data], receivedSize := st.receivedSize + data.length }

/-- Receiving a whole sequence of chunks in arrival order. -/
def recvAll (chunks : List (List Nat)) : RecvAccum :=
  chunks.foldl recvChunk ⟨[], 0⟩

/-- `new Blob(this.fileTransferState.buffer)` in `finalizeReceivedFile`:
the concatenation of the buffered chunks. -/
def receivedArtifact (st : RecvAccum) : List Nat :=
  st.buffer.flatten

theorem fileSlice_chunk (file : List Nat) (offset cs : Nat) :
    fileSlice file offset (offset + cs) = (file.drop offset).take cs := by
  simp [fileSlice]

theorem drop_min_length {α : Type} (l : List α) (n : Nat) :
    l.drop (min n l.length) = l.drop n := by
  rcases le_total n l.length with h | h
  · rw [min_eq_left h]
  · rw [min_eq_right h, List.drop_length, List.drop_eq_nil_of_le h]

theorem take_append_drop_takeLen {α : Type} (n : Nat) (l : List α) :
    l.take n ++ l.drop (l.take n).length = l := by
  rw [List.length_take, drop_min_length, List.take_append_drop]

theorem sendFileChunks_flatten (chunkSize : Nat) (file : List Nat)
    (offset : Nat) (hcs : 0 < chunkSize) :
    (sendFileChunks chunkSize file offset).flatten = file.drop offset := by
  have main : ∀ (n offset : Nat), file.length - offset ≤ n →
      (sendFileChunks chunkSize file offset).flatten = file.drop offset := by
    intro n
    induction n with
    | zero =>
      intro offset hle
      have hge : file.length ≤ offset := by omega
      have hneg : ¬(offset < file.length ∧ 0 < chunkSize) := by
        intro hc; omega
      rw [sendFileChunks, dif_neg hneg]
      rw [List.flatten_nil, List.drop_eq_nil_of_le hge]
    | succ n ih =>
      intro offset hle
      by_cases h : offset < file.length ∧ 0 < chunkSize
      · have hlen : (fileSlice file offset (offset + chunkSize)).length
            = min chunkSize (file.length - offset) := by
          simp [fileSlice]
        have hrec := ih (offset + (fileSlice file offset (offset + chunkSize)).length)
          (by omega)
        rw [sendFileChunks, dif_pos h]
        rw [List.flatten_cons, hrec, fileSlice_chunk,
          ← List.drop_drop, take_append_drop_takeLen]
      · have hge : file.length ≤ offset := by
          rcases Nat.lt_or_ge offset file.length with h' | h'
          · exact absurd ⟨h', hcs⟩ h
          · exact h'
        rw [sendFileChunks, dif_neg h]
        rw [List.flatten_nil, List.drop_eq_nil_of_le hge]
  exact main (file.length - offset) offset le_rfl

theorem recvAll_foldl (chunks : List (List Nat)) :
    ∀ init : RecvAccum,
      (chunks.foldl recvChunk init).buffer = init.buffer ++ chunks ∧
      (chunks.foldl recvChunk init).receivedSize =
        init.receivedSize + (chunks.map List.length).sum := by
  induction chunks with
  | nil => intro init; simp
  | cons c rest ih =>
    intro init
    have h := ih (recvChunk init c)
    simp only [List.foldl_cons]
    refine ⟨?_, ?_⟩
    · rw [h.1]; simp [recvChunk]
    · rw [h.2]; simp [recvChunk]; omega

theorem flatten_length_sum (chunks : List (List Nat)) :
    chunks.flatten.length = (chunks.map List.length).sum := by
  induction chunks with
  | nil => simp
  | cons c rest ih => simp [ih]

/-- C1: for every file and every chunk size `chunkSize > 0`, the sender's
segmentation into successive `file.slice(offset, offset + chunkSize)` chunks,
followed by the receiver's accumulation of the chunks in arrival order and
the final `Blob` concatenation, round-trips to a byte-identical artifact
whose length is exactly the file size (no messages dropped, in-order
delivery). -/
theorem chunked_transfer_roundtrip (file : List Nat) (chunkSize : Nat)
    (hcs : 0 < chunkSize) :
    receivedArtifact (recvAll (sendFileChunks chunkSize file 0)) = file ∧
    (receivedArtifact (recvAll (sendFileChunks chunkSize file 0))).length
      = file.length ∧
    (recvAll (sendFileChunks chunkSize file 0)).receivedSize = file.length := by
  have hbuf := recvAll_foldl (sendFileChunks chunkSize file 0) ⟨[], 0⟩
  have hflat := sendFileChunks_flatten chunkSize file 0 hcs
  have hart : receivedArtifact (recvAll (sendFileChunks chunkSize file 0)) = file := by
    unfold receivedArtifact recvAll
    rw [hbuf.1]
    simpa using hflat
  refine ⟨hart, by rw [hart], ?_⟩
  show (recvAll (sendFileChunks chunkSize file 0)).receivedSize = file.length
  unfold recvAll
  rw [hbuf.2, ← flatten_length_sum]
  simpa using congrArg List.length hflat

/-- Witness for C1 at a concrete input: a 5-byte file with 2-byte chunks. -/
theorem chunked_transfer_roundtrip_witness :
    0 < 2 ∧
    receivedArtifact (recvAll (sendFileChunks 2 [10, 20, 30, 40, 50] 0))
      = [10, 20, 30, 40, 50] :=
  ⟨by decide, (chunked_transfer_roundtrip [10, 20, 30, 40, 50] 2 (by decide)).1⟩

/-! ## Association-list model of JS `Map` -/

/-- `Map.get`: value of the entry whose key matches, if any. -/
def mGet {K V : Type} [DecidableEq K] : List (K × V) → K → Option V
  | [], _ => none
  | (k', v) :: rest, k => if k = k' then some v else mGet rest k

/-- `Map.set`: replace in place when the key is present, append otherwise. -/
def mSet {K V : Type} [DecidableEq K] : List (K × V) → K → V → List (K × V)
  | [], k, v => [(k, v)]
  | (k', v') :: rest, k, v =>
    if k = k' then (k, v) :: rest else (k', v') :: mSet rest k v

/-- `Map.delete`: remove the entry whose key matches. -/
def mDel {K V : Type} [DecidableEq K] : List (K × V) → K → List (K × V)
  | [], _ => []
  | (k', v') :: rest, k => if k = k' then rest else (k', v') :: mDel rest k

/-- Keys of a map are pairwise distinct (true of every real JS `Map`). -/
abbrev mWF {K V : Type} (m : List (K × V)) : Prop :=
  (m.map Prod.fst).Nodup

theorem mGet_mSet {K V : Type} [DecidableEq K] (m : List (K × V)) (k k' : K)
    (v : V) :
    mGet (mSet m k v) k' = if k' = k then some v else mGet m k' := by
  induction m with
  | nil => by_cases h : k' = k <;> simp [mGet, mSet, h]
  | cons e rest ih =>
    obtain ⟨k1, v1⟩ := e
    by_cases h1 : k = k1
    · subst h1
      by_cases h2 : k' = k <;> simp [mGet, mSet, h2]
    · by_cases h2 : k' = k1
      · subst h2
        have hne : ¬k' = k := fun hc => h1 hc.symm
        simp [mGet, mSet, h1, hne]
      · simp [mGet, mSet, h1, h2, ih]

theorem mGet_eq_none_iff {K V : Type} [DecidableEq K] (m : List (K × V))
    (k : K) : mGet m k = none ↔ k ∉ m.map Prod.fst := by
  induction m with
  | nil => simp [mGet]
  | cons e rest ih =>
    obtain ⟨k1, v1⟩ := e
    by_cases h : k = k1 <;> simp [mGet, h, ih]

theorem mGet_mDel {K V : Type} [DecidableEq K] (m : List (K × V))
    (hWF : mWF m) (k k' : K) :
    mGet (mDel m k) k' = if k' = k then none else mGet m k' := by
  induction m with
  | nil => by_cases h : k' = k <;> simp [mGet, mDel, h]
  | cons e rest ih =>
    obtain ⟨k1, v1⟩ := e
    obtain ⟨hnot, hnd⟩ := List.nodup_cons.mp hWF
    by_cases h1 : k = k1
    · subst h1
      by_cases h2 : k' = k
      · subst h2
        simp only [mDel, if_pos rfl, if_pos rfl]
        exact (mGet_eq_none_iff rest k').mpr hnot
      · simp [mGet, mDel, h2]
    · by_cases h2 : k' = k1
      · subst h2
        have hne : ¬k' = k := fun hc => h1 hc.symm
        simp [mGet, mDel, h1, hne]
      · simp [mGet, mDel, h1, h2, ih hnd]

theorem mem_keys_mSet {K V : Type} [DecidableEq K] (m : List (K × V))
    (k k' : K) (v : V) :
    k' ∈ (mSet m k v).map Prod.fst ↔ k' ∈ m.map Prod.fst ∨ k' = k := by
  induction m with
  | nil => simp [mSet]
  | cons e rest ih =>
    obtain ⟨k1, v1⟩ := e
    by_cases h : k = k1
    · simp only [mSet, if_pos h, List.map_cons, List.mem_cons]
      subst h
      tauto
    · simp only [mSet, if_neg h, List.map_cons, List.mem_cons, ih]
      tauto

theorem mWF_mSet {K V : Type} [DecidableEq K] (m : List (K × V)) (k : K)
    (v : V) (hWF : mWF m) : mWF (mSet m k v) := by
  induction m with
  | nil => simp [mWF, mSet]
  | cons e rest ih =>
    obtain ⟨k1, v1⟩ := e
    simp only [mWF, List.map_cons, List.nodup_cons] at hWF
    obtain ⟨hnot, hnd⟩ := hWF
    by_cases h : k = k1
    · simp only [mSet, if_pos h, mWF, List.map_cons, List.nodup_cons]
      subst h
      exact ⟨hnot, hnd⟩
    · simp only [mSet, if_neg h, mWF, List.map_cons, List.nodup_cons]
      refine ⟨?_, ih hnd⟩
      intro hc
      rcases (mem_keys_mSet rest k k1 v).mp hc with h' | h'
      · exact hnot h'
      · exact h h'.symm

theorem mDel_sublist {K V : Type} [DecidableEq K] (m : List (K × V)) (k : K) :
    (mDel m k).Sublist m := by
  induction m with
  | nil => simp [mDel]
  | cons e rest ih =>
    obtain ⟨k1, v1⟩ := e
    by_cases h : k = k1
    · simp only [mDel, if_pos h]
      exact List.sublist_cons_self (k1, v1) rest
    · simp only [mDel, if_neg h]
      exact List.Sublist.cons₂ (k1, v1) ih

theorem mWF_mDel {K V : Type} [DecidableEq K] (m : List (K × V)) (k : K)
    (hWF : mWF m) : mWF (mDel m k) :=
  List.Nodup.sublist (List.Sublist.map Prod.fst (mDel_sublist m k)) hWF

/-! ## Signaling relay and device registry (src/server.js, lines 22–129)

Server state: `devices` maps a device identifier to the socket that
registered it (socket modelled by its id, a `Nat`); `deviceConnections`
is the pairing table; `socketDev` records each socket's `socket.deviceId`
property (`undefined` before the socket ever registers, hence `Option`).
Keys of `deviceConnections` are `Option String` because
`deviceConnections.set(socket.deviceId, …)` uses `socket.deviceId`,
which may be `undefined`. -/

/-- A possibly-`undefined` device identifier (JS `socket.deviceId`). -/
abbrev OId := Option String

/-- The in-memory state of the signaling relay. -/
structure RelayState where
  devices : List (String × Nat)
  deviceConnections : List (OId × OId)
  socketDev : List (Nat × String)
deriving Repr, DecidableEq

/-- Messages emitted by the relay to sockets (`sock` is the target). -/
inductive SEmit where
  | errorMsg (sock : Nat) (msg : String)
  | peerConnected (sock : Nat) (peer : OId)
  | peerDisconnected (sock : Nat)
  | deviceListAll (entries : List (String × Bool))
deriving Repr, DecidableEq

/-- JS truthiness of `socket.deviceId` (`undefined` and `""` are falsy). -/
def idTruthy : OId → Bool
  | none => false
  | some s => s != ""

/-- The device list built by `broadcastDeviceList` / `getDevices`:
every registered identifier together with whether it has a pairing. -/
def deviceListOf (st : RelayState) : List (String × Bool) :=
  st.devices.map (fun p => (p.1, (mGet st.deviceConnections (some p.1)).isSome))

/-- `socket.on('register', …)` (server.js lines 26–33): store the socket
under the identifier (last registration wins), set `socket.deviceId`, and
broadcast the device list. -/
def register (st : RelayState) (sock : Nat) (deviceId : String) :
    RelayState × List SEmit :=
  let st' : RelayState := { st with
    devices := mSet st.devices deviceId sock,
    socketDev := mSet st.socketDev sock deviceId }
  (st', [SEmit.deviceListAll (deviceListOf st')])

/-- `socket.on('connectToDevice', …)` (server.js lines 45–67). -/
def connectToDevice (st : RelayState) (sock : Nat) (targetDeviceId : String) :
    RelayState × List SEmit :=
  match mGet st.devices targetDeviceId with
  | none => (st, [SEmit.errorMsg sock "Device not found"])
  | some targetSock =>
    if targetSock = sock then
      (st, [SEmit.errorMsg sock "Cannot connect to yourself"])
    else
      let fromId : OId := mGet st.socketDev sock
      let conns := mSet (mSet st.deviceConnections fromId (some targetDeviceId))
        (some targetDeviceId) fromId
      ({ st with deviceConnections := conns },
       [SEmit.peerConnected sock (some targetDeviceId),
        SEmit.peerConnected targetSock fromId])

/-- `socket.on('disconnectPeer', …)` (server.js lines 78–93). -/
def disconnectPeer (st : RelayState) (sock : Nat) : RelayState × List SEmit :=
  let devId : OId := mGet st.socketDev sock
  if idTruthy devId then
    match mGet st.deviceConnections devId with
    | some connectedId =>
      let connectedSock := match connectedId with
        | some c => mGet st.devices c
        | none => none
      let conns := mDel (mDel st.deviceConnections devId) connectedId
      ({ st with deviceConnections := conns },
       (match connectedSock with
        | some cs => [SEmit.peerDisconnected cs]
        | none => []) ++ [SEmit.peerDisconnected sock])
    | none => (st, [])
  else (st, [])

/-- `socket.on('disconnect', …)` (server.js lines 96–119): delete the
registry entry keyed by this socket's `deviceId` (whoever registered it
last), tear down any pairing, and rebroadcast the device list. -/
def disconnectCleanup (st : RelayState) (sock : Nat) : RelayState × List SEmit :=
  match mGet st.socketDev sock with
  | some d =>
    if d ≠ "" then
      let devices' := mDel st.devices d
      match mGet st.deviceConnections (some d) with
      | some connectedId =>
        let connectedSock := match connectedId with
          | some c => mGet devices' c
          | none => none
        let conns' := mDel (mDel st.deviceConnections (some d)) connectedId
        let st' : RelayState :=
          { st with devices := devices', deviceConnections := conns' }
        (st', (match connectedSock with
               | some cs => [SEmit.peerDisconnected cs]
               | none => []) ++ [SEmit.deviceListAll (deviceListOf st')])
      | none =>
        let st' : RelayState := { st with devices := devices' }
        (st', [SEmit.deviceListAll (deviceListOf st')])
    else (st, [])
  | none => (st, [])

/-! ### Pairing-table invariant -/

/-- The pairing table is symmetric: whenever `a` is mapped to `b`, `b` is
mapped to `a` (instantiating at `(a, b)` and `(b, a)` yields the
"if and only if" form). -/
def SymmConns (conns : List (OId × OId)) : Prop :=
  ∀ a b, mGet conns a = some b → mGet conns b = some a

/-- A device identifier appears in at most one pairing: it cannot be the
partner of two distinct identifiers. -/
def AtMostOnePairing (conns : List (OId × OId)) : Prop :=
  ∀ a b c, mGet conns b = some a → mGet conns c = some a → b = c

theorem symm_imp_atMostOne (conns : List (OId × OId))
    (hs : SymmConns conns) : AtMostOnePairing conns := by
  intro a b c h1 h2
  have hb := hs b a h1
  have hc := hs c a h2
  rw [hb] at hc
  exact Option.some.inj hc

theorem symm_pair (x y : OId) : SymmConns [(x, y), (y, x)] := by
  intro a b hab
  simp only [mGet] at hab ⊢
  by_cases h1 : a = x
  · rw [if_pos h1] at hab
    have hyb : y = b := Option.some.inj hab
    subst hyb
    by_cases h3 : y = x
    · rw [if_pos h3, h3, ← h1]
    · rw [if_neg h3, if_pos rfl, ← h1]
  · rw [if_neg h1] at hab
    by_cases h2 : a = y
    · rw [if_pos h2] at hab
      have hxb : x = b := Option.some.inj hab
      subst hxb
      rw [if_pos rfl, ← h2]
    · rw [if_neg h2] at hab
      exact absurd hab (by simp)

theorem symm_set_pair (conns : List (OId × OId)) (f t : OId)
    (hSymm : SymmConns conns)
    (hf : mGet conns f = none) (ht : mGet conns t = none) :
    SymmConns (mSet (mSet conns f t) t f) := by
  have hget : ∀ x, mGet (mSet (mSet conns f t) t f) x
      = if x = t then some f else if x = f then some t else mGet conns x := by
    intro x
    rw [mGet_mSet, mGet_mSet]
  intro a b hab
  rw [hget] at hab
  rw [hget]
  by_cases h1 : a = t
  · rw [if_pos h1] at hab
    have hfb : f = b := Option.some.inj hab
    subst hfb
    by_cases h2 : f = t
    · rw [if_pos h2, h2, ← h1]
    · rw [if_neg h2, if_pos rfl, ← h1]
  · rw [if_neg h1] at hab
    by_cases h2 : a = f
    · rw [if_pos h2] at hab
      have htb : t = b := Option.some.inj hab
      subst htb
      rw [if_pos rfl, ← h2]
    · rw [if_neg h2] at hab
      have hbt : b ≠ t := by
        intro hc
        have h' := hSymm a b hab
        rw [hc, ht] at h'
        exact Option.noConfusion h'
      have hbf : b ≠ f := by
        intro hc
        have h' := hSymm a b hab
        rw [hc, hf] at h'
        exact Option.noConfusion h'
      rw [if_neg hbt, if_neg hbf]
      exact hSymm a b hab

theorem symm_del_pair (conns : List (OId × OId)) (hWF : mWF conns)
    (hSymm : SymmConns conns) (k v : OId) (hkv : mGet conns k = some v) :
    SymmConns (mDel (mDel conns k) v) := by
  have hWF' : mWF (mDel conns k) := mWF_mDel conns k hWF
  have hget : ∀ x, mGet (mDel (mDel conns k) v) x
      = if x = v then none else if x = k then none else mGet conns x := by
    intro x
    rw [mGet_mDel _ hWF', mGet_mDel _ hWF]
  intro a b hab
  rw [hget] at hab
  rw [hget]
  by_cases h1 : a = v
  · rw [if_pos h1] at hab; exact absurd hab (by simp)
  · rw [if_neg h1] at hab
    by_cases h2 : a = k
    · rw [if_pos h2] at hab; exact absurd hab (by simp)
    · rw [if_neg h2] at hab
      have hvk : mGet conns v = some k := hSymm k v hkv
      have hbv : b ≠ v := by
        intro hc; subst hc
        have := hSymm a b hab
        rw [hvk] at this
        exact h2 (Option.some.inj this).symm
      have hbk : b ≠ k := by
        intro hc; subst hc
        have := hSymm a b hab
        rw [hkv] at this
        exact h1 (Option.some.inj this).symm
      rw [if_neg hbv, if_neg hbk]
      exact hSymm a b hab

theorem symm_nil : SymmConns [] := by
  intro a b hab
  simp [mGet] at hab

theorem mGet_del_pair_self (m : List (OId × OId)) (hWF : mWF m) (k v : OId) :
    mGet (mDel (mDel m k) v) k = none := by
  rw [mGet_mDel _ (mWF_mDel m k hWF)]
  by_cases h : k = v
  · rw [if_pos h]
  · rw [if_neg h, mGet_mDel _ hWF, if_pos rfl]

theorem deviceListOf_keys (st : RelayState) :
    (deviceListOf st).map Prod.fst = st.devices.map Prod.fst := by
  simp [deviceListOf]

/-! ### Claims about the relay -/

/-- C5: `connectToDevice` fails with the named error `"Device not found"`
when the target identifier is not registered, and with
`"Cannot connect to yourself"` when the target is registered to the
requesting socket itself; in both failure cases the entire relay state
(registry and pairing table) is unchanged.  On success a symmetric pairing
entry is recorded and both sides are notified with each other's
identifier via `peerConnected`. -/
theorem connectToDevice_contract :
    (∀ (st : RelayState) (sock : Nat) (target : String),
      mGet st.devices target = none →
      connectToDevice st sock target
        = (st, [SEmit.errorMsg sock "Device not found"])) ∧
    (∀ (st : RelayState) (sock : Nat) (target : String),
      mGet st.devices target = some sock →
      connectToDevice st sock target
        = (st, [SEmit.errorMsg sock "Cannot connect to yourself"])) ∧
    (∀ (st : RelayState) (sock tsock : Nat) (target fromId : String),
      mGet st.devices target = some tsock → tsock ≠ sock →
      mGet st.socketDev sock = some fromId →
      (connectToDevice st sock target).1.devices = st.devices ∧
      (connectToDevice st sock target).1.socketDev = st.socketDev ∧
      mGet (connectToDevice st sock target).1.deviceConnections (some fromId)
        = some (some target) ∧
      mGet (connectToDevice st sock target).1.deviceConnections (some target)
        = some (some fromId) ∧
      (connectToDevice st sock target).2
        = [SEmit.peerConnected sock (some target),
           SEmit.peerConnected tsock (some fromId)]) := by
  refine ⟨?_, ?_, ?_⟩
  · intro st sock target h
    simp [connectToDevice, h]
  · intro st sock target h
    simp [connectToDevice, h]
  · intro st sock tsock target fromId h1 h2 h3
    have hred : (connectToDevice st sock target).1.deviceConnections
        = mSet (mSet st.deviceConnections (some fromId) (some target))
            (some target) (some fromId) := by
      simp only [connectToDevice, h1, if_neg h2, h3]
    have hdevs : (connectToDevice st sock target).1.devices = st.devices := by
      simp only [connectToDevice, h1, if_neg h2, h3]
    have hsockd : (connectToDevice st sock target).1.socketDev = st.socketDev := by
      simp only [connectToDevice, h1, if_neg h2, h3]
    have hemits : (connectToDevice st sock target).2
        = [SEmit.peerConnected sock (some target),
           SEmit.peerConnected tsock (some fromId)] := by
      simp only [connectToDevice, h1, if_neg h2, h3]
    refine ⟨hdevs, hsockd, ?_, ?_, hemits⟩
    · rw [hred, mGet_mSet, mGet_mSet]
      by_cases hft : (some fromId : OId) = some target
      · rw [if_pos hft, hft]
      · rw [if_neg hft, if_pos rfl]
    · rw [hred, mGet_mSet, if_pos rfl]

/-- Witness for C5 at concrete states: an unknown target, a self-target,
and a successful pairing. -/
theorem connectToDevice_contract_witness :
    connectToDevice ⟨[("B", 2)], [], [(1, "A")]⟩ 1 "X"
      = (⟨[("B", 2)], [], [(1, "A")]⟩, [SEmit.errorMsg 1 "Device not found"]) ∧
    connectToDevice ⟨[("A", 1)], [], [(1, "A")]⟩ 1 "A"
      = (⟨[("A", 1)], [], [(1, "A")]⟩,
         [SEmit.errorMsg 1 "Cannot connect to yourself"]) ∧
    mGet (connectToDevice ⟨[("B", 2)], [], [(1, "A")]⟩ 1 "B").1.deviceConnections
      (some "A") = some (some "B") :=
  ⟨connectToDevice_contract.1 _ 1 "X" (by decide),
   connectToDevice_contract.2.1 _ 1 "A" (by decide),
   (connectToDevice_contract.2.2 _ 1 2 "B" "A" (by decide) (by decide)
     (by decide)).2.2.1⟩

/-- C6 (amended): `register`, `disconnectPeer` and the connection-loss
cleanup preserve the pairing-table invariant (symmetry, which implies that
an identifier appears in at most one pairing); `connectToDevice` preserves
it only when both the requester and the target are currently unpaired —
re-issuing `connectToDevice` from an already-paired device breaks it. -/
theorem pairing_invariant_preservation :
    (∀ (st : RelayState) (sock : Nat) (deviceId : String),
      SymmConns st.deviceConnections →
      SymmConns (register st sock deviceId).1.deviceConnections) ∧
    (∀ (st : RelayState) (sock : Nat),
      mWF st.deviceConnections → SymmConns st.deviceConnections →
      SymmConns (disconnectPeer st sock).1.deviceConnections) ∧
    (∀ (st : RelayState) (sock : Nat),
      mWF st.deviceConnections → SymmConns st.deviceConnections →
      SymmConns (disconnectCleanup st sock).1.deviceConnections) ∧
    (∀ (st : RelayState) (sock : Nat) (target : String),
      SymmConns st.deviceConnections →
      mGet st.deviceConnections (mGet st.socketDev sock) = none →
      mGet st.deviceConnections (some target) = none →
      SymmConns (connectToDevice st sock target).1.deviceConnections) ∧
    (∀ conns : List (OId × OId), SymmConns conns → AtMostOnePairing conns) := by
  refine ⟨?_, ?_, ?_, ?_, symm_imp_atMostOne⟩
  · intro st sock deviceId h
    exact h
  · intro st sock hWF hSymm
    simp only [disconnectPeer]
    split
    · split
      · next cid hcid => exact symm_del_pair _ hWF hSymm _ _ hcid
      · exact hSymm
    · exact hSymm
  · intro st sock hWF hSymm
    simp only [disconnectCleanup]
    split
    · split
      · split
        · next cid hcid => exact symm_del_pair _ hWF hSymm _ _ hcid
        · exact hSymm
      · exact hSymm
    · exact hSymm
  · intro st sock target hSymm hreq htar
    simp only [connectToDevice]
    split
    · exact hSymm
    · split
      · exact hSymm
      · exact symm_set_pair _ _ _ hSymm hreq htar

/-- Witness for the amended C6 at concrete states. -/
theorem pairing_invariant_preservation_witness :
    SymmConns (register ⟨[], [], []⟩ 1 "A").1.deviceConnections ∧
    SymmConns (disconnectPeer
      ⟨[("A", 1), ("B", 2)], [(some "A", some "B"), (some "B", some "A")],
       [(1, "A"), (2, "B")]⟩ 1).1.deviceConnections ∧
    SymmConns (disconnectCleanup
      ⟨[("A", 1), ("B", 2)], [(some "A", some "B"), (some "B", some "A")],
       [(1, "A"), (2, "B")]⟩ 1).1.deviceConnections ∧
    SymmConns (connectToDevice
      ⟨[("A", 1), ("B", 2)], [], [(1, "A"), (2, "B")]⟩ 1 "B").1.deviceConnections :=
  ⟨pairing_invariant_preservation.1 _ 1 "A" symm_nil,
   pairing_invariant_preservation.2.1 _ 1 (by decide) (symm_pair _ _),
   pairing_invariant_preservation.2.2.1 _ 1 (by decide) (symm_pair _ _),
   pairing_invariant_preservation.2.2.2.1 _ 1 "B" symm_nil (by decide) (by decide)⟩

/-- Concrete relay runs used to refute the claim that every relay operation
preserves the pairing invariant. -/
def relayEx0 : RelayState := ⟨[], [], []⟩

/-- Register `"A"`, `"B"`, `"C"` on sockets 1, 2, 3, then pair `"A"`–`"B"`. -/
def relayEx1 : RelayState :=
  (connectToDevice
    (register (register (register relayEx0 1 "A").1 2 "B").1 3 "C").1
    1 "B").1

/-- The already-paired `"A"` re-issues `connectToDevice` towards `"C"`. -/
def relayEx2 : RelayState := (connectToDevice relayEx1 1 "C").1

/-- Counterexample to C6 as stated: after the pairing `"A"`–`"B"` the table
is symmetric, but a re-issued `connectToDevice` from `"A"` to `"C"` leaves
the stale entry `"B" ↦ "A"` behind: symmetry fails and `"A"` appears in two
pairings at once. -/
theorem pairing_invariant_counterexample :
    SymmConns relayEx1.deviceConnections ∧
    ¬ SymmConns relayEx2.deviceConnections ∧
    ¬ AtMostOnePairing relayEx2.deviceConnections := by
  refine ⟨?_, ?_, ?_⟩
  · have h : relayEx1.deviceConnections
        = [(some "A", some "B"), (some "B", some "A")] := by decide
    rw [h]
    exact symm_pair _ _
  · intro hs
    have h1 : mGet relayEx2.deviceConnections (some "B") = some (some "A") := by
      decide
    have h2 := hs _ _ h1
    have h3 : mGet relayEx2.deviceConnections (some "A") = some (some "C") := by
      decide
    rw [h3] at h2
    exact absurd (Option.some.inj h2) (by decide)
  · intro hm
    have h1 : mGet relayEx2.deviceConnections (some "B") = some (some "A") := by
      decide
    have h2 : mGet relayEx2.deviceConnections (some "C") = some (some "A") := by
      decide
    exact absurd (hm (some "A") (some "B") (some "C") h1 h2) (by decide)

/-- Registering `d` on socket `s1` and then re-registering it on `s2`
(last registration wins). -/
def reRegistered (st : RelayState) (s1 s2 : Nat) (d : String) : RelayState :=
  (register (register st s1 d).1 s2 d).1

/-- C10: after `d` is re-registered from a second socket `s2`, a disconnect
of the superseded socket `s1` still deletes `d`'s registry entry (removing
`s2`'s live registration) and tears down `d`'s pairing, so the rebroadcast
device list omits `d` although its current socket is still connected. -/
theorem stale_disconnect_removes_live_registration
    (st : RelayState) (s1 s2 : Nat) (d : String)
    (hWFdev : mWF st.devices) (hWFconns : mWF st.deviceConnections)
    (hd : d ≠ "") :
    mGet (reRegistered st s1 s2 d).devices d = some s2 ∧
    mGet (disconnectCleanup (reRegistered st s1 s2 d) s1).1.devices d = none ∧
    mGet (disconnectCleanup (reRegistered st s1 s2 d) s1).1.deviceConnections
      (some d) = none ∧
    d ∉ (deviceListOf (disconnectCleanup (reRegistered st s1 s2 d) s1).1).map
      Prod.fst := by
  have hdev : (reRegistered st s1 s2 d).devices
      = mSet (mSet st.devices d s1) d s2 := rfl
  have hconns : (reRegistered st s1 s2 d).deviceConnections
      = st.deviceConnections := rfl
  have hWFdev2 : mWF (mSet (mSet st.devices d s1) d s2) :=
    mWF_mSet _ _ _ (mWF_mSet _ _ _ hWFdev)
  have hsock : mGet (reRegistered st s1 s2 d).socketDev s1 = some d := by
    show mGet (mSet (mSet st.socketDev s1 d) s2 d) s1 = some d
    rw [mGet_mSet, mGet_mSet]
    by_cases h12 : s1 = s2
    · rw [if_pos h12]
    · rw [if_neg h12, if_pos rfl]
  have hgetdev : mGet (reRegistered st s1 s2 d).devices d = some s2 := by
    rw [hdev, mGet_mSet, if_pos rfl]
  have hdevnone : mGet (mDel (mSet (mSet st.devices d s1) d s2) d) d = none := by
    rw [mGet_mDel _ hWFdev2, if_pos rfl]
  refine ⟨hgetdev, ?_, ?_, ?_⟩
  · simp only [disconnectCleanup, hsock, hconns, hdev]
    rw [if_pos hd]
    split
    · exact hdevnone
    · exact hdevnone
  · simp only [disconnectCleanup, hsock, hconns, hdev]
    rw [if_pos hd]
    split
    · exact mGet_del_pair_self _ hWFconns _ _
    · next hcid => exact hcid
  · simp only [disconnectCleanup, hsock, hconns, hdev]
    rw [if_pos hd]
    split
    · rw [deviceListOf_keys]
      exact (mGet_eq_none_iff _ _).mp hdevnone
    · rw [deviceListOf_keys]
      exact (mGet_eq_none_iff _ _).mp hdevnone

/-- Witness for C10: `"D"` registered on socket 1, re-registered on
socket 2, then socket 1 disconnects. -/
theorem stale_disconnect_removes_live_registration_witness :
    mGet (reRegistered relayEx0 1 2 "D").devices "D" = some 2 ∧
    mGet (disconnectCleanup (reRegistered relayEx0 1 2 "D") 1).1.devices "D"
      = none :=
  let h := stale_disconnect_removes_live_registration relayEx0 1 2 "D"
    (by decide) (by decide) (by decide)
  ⟨h.1, h.2.1⟩

/-! ## Initiator selection (server.js embedded app copy, `startFileTransfer`)

Line 507: `const shouldCreateOffer = this.deviceId.localeCompare(this.peerId) < 0;`
`localeCompare` is modelled as the lexicographic order on strings: a
negative result exactly when the receiver string sorts before the argument. -/

/-- `a.localeCompare(b)` modelled over the lexicographic string order. -/
def localeCompare (a b : String) : Int :=
  if a < b then -1 else if a = b then 0 else 1

/-- `shouldCreateOffer` from `startFileTransfer`: this peer creates the
offer when its own identifier compares strictly below the peer's. -/
def shouldCreateOffer (deviceId peerId : String) : Bool :=
  localeCompare deviceId peerId < 0

theorem shouldCreateOffer_iff_lt (a b : String) :
    shouldCreateOffer a b = true ↔ a < b := by
  unfold shouldCreateOffer localeCompare
  by_cases h1 : a < b
  · simp [h1]
  · by_cases h2 : a = b <;> simp [h1, h2]

/-- C4: for distinct identifiers the initiator-selection rule designates
exactly one of the two peers as offer-creator — the one whose identifier is
lexicographically smaller — and the two peers' independent computations
(`shouldCreateOffer a b` on one side, `shouldCreateOffer b a` on the other)
are complementary, being evaluations of one pure function. -/
theorem initiator_selection (a b : String) (hne : a ≠ b) :
    (shouldCreateOffer a b = true ↔ a < b) ∧
    shouldCreateOffer a b = !shouldCreateOffer b a ∧
    (shouldCreateOffer a b = true ∨ shouldCreateOffer b a = true) ∧
    ¬(shouldCreateOffer a b = true ∧ shouldCreateOffer b a = true) := by
  rcases lt_or_gt_of_ne hne with hlt | hgt
  · have h1 : shouldCreateOffer a b = true := (shouldCreateOffer_iff_lt a b).mpr hlt
    have h2 : shouldCreateOffer b a = false := by
      rcases Bool.eq_false_or_eq_true (shouldCreateOffer b a) with h | h
      · exact absurd ((shouldCreateOffer_iff_lt b a).mp h) (asymm hlt)
      · exact h
    refine ⟨shouldCreateOffer_iff_lt a b, ?_, Or.inl h1, ?_⟩
    · rw [h1, h2]; rfl
    · intro hc
      rw [h2] at hc
      exact Bool.false_ne_true hc.2
  · have h1 : shouldCreateOffer b a = true := (shouldCreateOffer_iff_lt b a).mpr hgt
    have h2 : shouldCreateOffer a b = false := by
      rcases Bool.eq_false_or_eq_true (shouldCreateOffer a b) with h | h
      · exact absurd ((shouldCreateOffer_iff_lt a b).mp h) (asymm hgt)
      · exact h
    refine ⟨shouldCreateOffer_iff_lt a b, ?_, Or.inr h1, ?_⟩
    · rw [h1, h2]; rfl
    · intro hc
      rw [h2] at hc
      exact Bool.false_ne_true hc.1

/-- Witness for C4 at the identifiers `"AAA111"` and `"BBB222"`. -/
theorem initiator_selection_witness :
    shouldCreateOffer "AAA111" "BBB222" = true ∨
    shouldCreateOffer "BBB222" "AAA111" = true :=
  (initiator_selection "AAA111" "BBB222" (by decide)).2.2.1

/-! ## Chunked transfer engine, receiver side (server.js embedded app copy)

`handleDataChannelMessage` (lines 944–1119) and `finalizeReceivedFile`
(lines 1310–1414).  The timers the code arms (`eofTimeout`, the periodic
completion-check interval, the 5-second finalize safety valve) are modelled
as events of a step function; a one-shot timeout event acts only while its
timer is armed.  UI, logging and timing samples (`lastTime`, `speedMbps`,
`lastChunkTime`) are omitted; the time-dependent guards of the periodic
check become event parameters that range over both truth values. -/

namespace Engine

/-- Which `setTimeout` callback is stored in `fileTransferState.eofTimeout`:
the 15 s timeout armed on file metadata, the follow-up 15 s timeout it arms,
or the 10 s wait-for-missing-data timeout armed by an incomplete finalize. -/
inductive TimeoutKind where
  | metaEof
  | secondEof
  | finalizeWait
deriving Repr, DecidableEq

/-- A finalized artifact pushed into `receivedFiles`: `size` is the
`receivedSize` at finalization, `originalSize` the declared metadata size,
`data` the `Blob` contents (URL, timestamp and random id omitted). -/
structure RecvFile where
  name : String
  size : Nat
  originalSize : Nat
  data : List Nat
deriving Repr, DecidableEq

/-- `fileTransferState` of the embedded app copy plus the artifact list and
a counter of completion notifications (`showSuccess` calls). -/
structure EngineState where
  isTransferring : Bool
  currentFileIndex : Nat
  totalFiles : Nat
  receivedSize : Nat
  fileSize : Nat
  fileName : String
  buffer : List (List Nat)
  eofReceived : Bool
  isFinalizing : Bool
  eofTimeout : Option TimeoutKind
  completionCheck : Bool
  receivedFiles : List RecvFile
  successes : Nat
deriving Repr, DecidableEq

/-- `needle` is a prefix of `hay` (character lists). -/
def listPre : List Char → List Char → Bool
  | [], _ => true
  | _ :: _, [] => false
  | n :: ns, h :: hs => n == h && listPre ns hs

/-- `needle` occurs somewhere in `hay` (character lists). -/
def listSub (needle : List Char) : List Char → Bool
  | [] => needle.isEmpty
  | c :: rest => listPre needle (c :: rest) || listSub needle rest

/-- JS `hay.includes(needle)`. -/
def strContains (hay needle : String) : Bool :=
  listSub needle.data hay.data

/-- JS `s.replace(/\.[^\/.]+$/, "")`: drop a trailing `"."` followed by one
or more characters none of which is `'.'` or `'/'`. -/
def stripExt (s : String) : String :=
  let rev := s.data.reverse
  let ext := rev.takeWhile (fun c => c != '.' && c != '/')
  match rev.drop ext.length with
  | '.' :: rest => if ext.isEmpty then s else String.mk rest.reverse
  | _ => s

/-- The duplicate-artifact lookup in `finalizeReceivedFile`:
`receivedFiles.find(f => f.name === fileName ||
f.name.includes(fileName.replace(/\.[^\/.]+$/, "")))`. -/
def findMatch (files : List RecvFile) (fileName : String) : Option RecvFile :=
  files.find? (fun f => f.name == fileName || strContains f.name (stripExt fileName))

/-- JS `(receivedSize / fileSize) * 100 >= 99` over exact rationals
(`fileSize = 0` yields `Infinity`, or `NaN` when `receivedSize = 0` too). -/
def progressGE99 (receivedSize fileSize : Nat) : Bool :=
  if fileSize = 0 then receivedSize != 0
  else decide (fileSize * 99 ≤ receivedSize * 100)

/-- JS `receivedSize >= fileSize * 0.999` over exact rationals. -/
def closeEnough999 (receivedSize fileSize : Nat) : Bool :=
  decide (fileSize * 999 ≤ receivedSize * 1000)

/-- `finalizeReceivedFile` (embedded app copy, lines 1310–1414): re-entry
guard; duplicate-name lookup; clear `eofTimeout` and the completion-check
interval; if `receivedSize < fileSize` do not finalize, reset the guard and
arm the 10 s wait-for-data timeout; otherwise assemble the artifact, push
it, notify success, and reset the per-transfer flags. -/
def finalizeReceivedFile (st : EngineState) : EngineState :=
  if st.isFinalizing then st
  else
    match findMatch st.receivedFiles st.fileName with
    | some _ => st
    | none =>
      if st.receivedSize < st.fileSize then
        { st with
          isFinalizing := false,
          completionCheck := false,
          eofTimeout := some TimeoutKind.finalizeWait }
      else
        { st with
          buffer := [],
          eofTimeout := none,
          completionCheck := false,
          receivedFiles := st.receivedFiles
            ++ [{ name := st.fileName, size := st.receivedSize,
                  originalSize := st.fileSize, data := st.buffer.flatten }],
          successes := st.successes + 1,
          eofReceived := false,
          isFinalizing := false }

/-- Lines 976–980 of the EOF branch: when the transfer is ≥ 99 % complete
and the finalize-in-progress flag is still set, force it off. -/
def eofUnlock (st : EngineState) : EngineState :=
  if progressGE99 st.receivedSize st.fileSize && st.isFinalizing then
    { st with isFinalizing := false }
  else st

/-- Lines 1111–1117 of the binary branch: once `receivedSize` equals the
declared size, finalize if the end-marker has already arrived. -/
def chunkComplete (st : EngineState) : EngineState :=
  if st.receivedSize = st.fileSize then
    if st.eofReceived then finalizeReceivedFile st else st
  else st

/-- Events driving the receiver: data-channel messages and timer callbacks. -/
inductive Msg where
  | multiMeta (total : Nat)
  | meta (name : String) (size : Nat)
  | chunk (data : List Nat)
  | eofMsg
  | timerFire (k : TimeoutKind)
  | completionFire (quiet : Bool)
  | safetyFire
deriving Repr, DecidableEq

/-- One step of the receiver: `handleDataChannelMessage` on a message, or a
timer callback.  `completionFire quiet` is the periodic completion check,
with `quiet` standing for its time conditions (`timeSinceLastChunk > 10 s`
and not still receiving); `safetyFire` is the 5 s finalize safety valve.
A binary message of exactly 1024 bytes is intercepted as "binary test
data" (lines 924–942) and dropped before the chunk branch is reached —
this applies to genuine file chunks of that size as well, since the data
channel delivers every chunk as an `ArrayBuffer`. -/
def handleMessage (st : EngineState) (msg : Msg) : EngineState :=
  match msg with
  | Msg.multiMeta total =>
    { st with totalFiles := total, currentFileIndex := 0 }
  | Msg.meta name size =>
    if st.isTransferring && (st.fileName == name) then st
    else
      { st with
        fileName := name,
        fileSize := size,
        receivedSize := 0,
        buffer := [],
        currentFileIndex := st.currentFileIndex + 1,
        eofReceived := false,
        isFinalizing := false,
        completionCheck := true,
        eofTimeout := some TimeoutKind.metaEof }
  | Msg.chunk data =>
    if data.length = 1024 then st
    else
      chunkComplete
        { st with
          buffer := st.buffer ++ [data],
          receivedSize := st.receivedSize + data.length }
  | Msg.eofMsg =>
    finalizeReceivedFile
      (eofUnlock { st with eofReceived := true, eofTimeout := none })
  | Msg.timerFire k =>
    if st.eofTimeout = some k then
      match k with
      | TimeoutKind.metaEof =>
        if st.eofReceived = false then
          if st.fileSize ≤ st.receivedSize then
            finalizeReceivedFile { st with eofTimeout := none }
          else { st with eofTimeout := some TimeoutKind.secondEof }
        else { st with eofTimeout := none }
      | TimeoutKind.secondEof =>
        if st.fileSize ≤ st.receivedSize then
          finalizeReceivedFile { st with eofTimeout := none }
        else { st with eofTimeout := none, isFinalizing := false }
      | TimeoutKind.finalizeWait =>
        if closeEnough999 st.receivedSize st.fileSize then
          finalizeReceivedFile { st with eofTimeout := none }
        else { st with eofTimeout := none, isFinalizing := false }
    else st
  | Msg.completionFire quiet =>
    if st.completionCheck = true ∧ st.fileSize ≤ st.receivedSize ∧ quiet = true
        ∧ st.eofReceived = false ∧ st.isFinalizing = false then
      finalizeReceivedFile st
    else st
  | Msg.safetyFire =>
    if st.isFinalizing then { st with isFinalizing := false } else st

/-- Every artifact was finalized with `receivedSize ≥` its declared size. -/
def SizeInv (files : List RecvFile) : Prop :=
  ∀ f ∈ files, f.originalSize ≤ f.size

theorem sizeInv_finalize (st : EngineState) (h : SizeInv st.receivedFiles) :
    SizeInv (finalizeReceivedFile st).receivedFiles := by
  unfold finalizeReceivedFile
  split
  · exact h
  · split
    · exact h
    · split
      · exact h
      · next hlt =>
        intro f hf
        rcases List.mem_append.mp hf with hmem | hmem
        · exact h f hmem
        · have heq : f = ⟨st.fileName, st.receivedSize, st.fileSize,
              st.buffer.flatten⟩ := List.mem_singleton.mp hmem
          subst heq
          show st.fileSize ≤ st.receivedSize
          omega

theorem sizeInv_handleMessage (st : EngineState) (msg : Msg)
    (h : SizeInv st.receivedFiles) :
    SizeInv (handleMessage st msg).receivedFiles := by
  cases msg with
  | multiMeta total => exact h
  | meta name size =>
    simp only [handleMessage]
    split
    · exact h
    · exact h
  | chunk data =>
    simp only [handleMessage, chunkComplete]
    split
    · exact h
    · split
      · split
        · exact sizeInv_finalize _ h
        · exact h
      · exact h
  | eofMsg =>
    simp only [handleMessage, eofUnlock]
    split
    · exact sizeInv_finalize _ h
    · exact sizeInv_finalize _ h
  | timerFire k =>
    cases k with
    | metaEof =>
      simp only [handleMessage]
      split
      · split
        · split
          · exact sizeInv_finalize _ h
          · exact h
        · exact h
      · exact h
    | secondEof =>
      simp only [handleMessage]
      split
      · split
        · exact sizeInv_finalize _ h
        · exact h
      · exact h
    | finalizeWait =>
      simp only [handleMessage]
      split
      · split
        · exact sizeInv_finalize _ h
        · exact h
      · exact h
  | completionFire quiet =>
    simp only [handleMessage]
    split
    · exact sizeInv_finalize _ h
    · exact h
  | safetyFire =>
    simp only [handleMessage]
    split
    · exact h
    · exact h

theorem sizeInv_run (st : EngineState) (msgs : List Msg)
    (h : SizeInv st.receivedFiles) :
    SizeInv ((msgs.foldl handleMessage st).receivedFiles) := by
  induction msgs generalizing st with
  | nil => exact h
  | cons m rest ih => exact ih _ (sizeInv_handleMessage st m h)

theorem findMatch_append_self (l : List RecvFile) (n : String) (a : RecvFile)
    (h : findMatch l n = none) (ha : a.name = n) :
    findMatch (l ++ [a]) n = some a := by
  unfold findMatch at h ⊢
  rw [List.find?_append, h]
  simp [ha]

/-- C2 (amended): (a) in any run of the receiver, every artifact in
`receivedFiles` was finalized with `receivedSize ≥` its declared size —
the engine never finalizes an incomplete file (the ≥ 99.9 % tolerance
path re-enters `finalizeReceivedFile`, whose size check again refuses, so
it creates no exception to this); (b) on EOF with
`receivedSize < fileSize` the receiver does not finalize — no artifact,
no notification — but arms the bounded wait-for-data timeout, remembering
the end-marker; (c) when EOF arrived first, the delayed chunk that makes
`receivedSize` equal the declared size finalizes immediately, producing
exactly one artifact and one notification without a second EOF, provided
the chunk is not exactly 1024 bytes; (d) a binary chunk of exactly 1024
bytes is intercepted by the binary-test handler and silently discarded,
leaving the state unchanged — a transfer whose completing chunk has that
size never finalizes on its arrival. -/
theorem eof_protocol :
    (∀ (st : EngineState) (msgs : List Msg), SizeInv st.receivedFiles →
      SizeInv ((msgs.foldl handleMessage st).receivedFiles)) ∧
    (∀ st : EngineState,
      st.isFinalizing = false →
      findMatch st.receivedFiles st.fileName = none →
      st.receivedSize < st.fileSize →
      (handleMessage st Msg.eofMsg).receivedFiles = st.receivedFiles ∧
      (handleMessage st Msg.eofMsg).successes = st.successes ∧
      (handleMessage st Msg.eofMsg).eofReceived = true ∧
      (handleMessage st Msg.eofMsg).eofTimeout
        = some TimeoutKind.finalizeWait) ∧
    (∀ (st : EngineState) (data : List Nat),
      st.isFinalizing = false →
      findMatch st.receivedFiles st.fileName = none →
      st.eofReceived = true →
      st.receivedSize + data.length = st.fileSize →
      data.length ≠ 1024 →
      (handleMessage st (Msg.chunk data)).receivedFiles
        = st.receivedFiles
          ++ [{ name := st.fileName, size := st.fileSize,
                originalSize := st.fileSize,
                data := (st.buffer ++ [data]).flatten }] ∧
      (handleMessage st (Msg.chunk data)).successes = st.successes + 1) ∧
    (∀ (st : EngineState) (data : List Nat),
      data.length = 1024 →
      handleMessage st (Msg.chunk data) = st) := by
  refine ⟨sizeInv_run, ?_, ?_, ?_⟩
  · intro st hfin hmatch hlt
    refine ⟨?_, ?_, ?_, ?_⟩ <;>
      simp [handleMessage, eofUnlock, finalizeReceivedFile, hfin, hmatch, hlt]
  · intro st data hfin hmatch heof hsz hne
    refine ⟨?_, ?_⟩ <;>
      simp [handleMessage, chunkComplete, finalizeReceivedFile,
        hfin, hmatch, heof, hsz, hne]
  · intro st data h1024
    simp [handleMessage, h1024]

/-- A receiver state about to complete a 2-byte file `"a"`. -/
def engineEx : EngineState :=
  { isTransferring := false, currentFileIndex := 1, totalFiles := 1,
    receivedSize := 2, fileSize := 2, fileName := "a", buffer := [[5, 6]],
    eofReceived := true, isFinalizing := false, eofTimeout := none,
    completionCheck := false, receivedFiles := [], successes := 0 }

/-- A receiver state missing the final byte of a 2-byte file `"b"`. -/
def engineExB : EngineState :=
  { isTransferring := false, currentFileIndex := 1, totalFiles := 1,
    receivedSize := 1, fileSize := 2, fileName := "b", buffer := [[9]],
    eofReceived := false, isFinalizing := false,
    eofTimeout := some TimeoutKind.metaEof,
    completionCheck := true, receivedFiles := [], successes := 0 }

/-- A receiver state that saw EOF before any chunk of a 2-byte file. -/
def engineExC : EngineState :=
  { isTransferring := false, currentFileIndex := 1, totalFiles := 1,
    receivedSize := 0, fileSize := 2, fileName := "c", buffer := [],
    eofReceived := true, isFinalizing := false, eofTimeout := none,
    completionCheck := true, receivedFiles := [], successes := 0 }

/-- Witness for C2 at concrete receiver states. -/
theorem eof_protocol_witness :
    SizeInv (([Msg.eofMsg].foldl handleMessage engineEx).receivedFiles) ∧
    (handleMessage engineExB Msg.eofMsg).receivedFiles
      = engineExB.receivedFiles ∧
    (handleMessage engineExC (Msg.chunk [7, 8])).successes
      = engineExC.successes + 1 ∧
    handleMessage engineExC (Msg.chunk (List.replicate 1024 7)) = engineExC :=
  ⟨eof_protocol.1 engineEx [Msg.eofMsg]
      (fun f hf => absurd hf (List.not_mem_nil f)),
   (eof_protocol.2.1 engineExB (by decide) (by decide) (by decide)).1,
   (eof_protocol.2.2.1 engineExC [7, 8] (by decide) (by decide) (by decide)
      (by decide) (by decide)).2,
   eof_protocol.2.2.2 engineExC (List.replicate 1024 7)
      (by rw [List.length_replicate])⟩

/-- A receiver that saw EOF first and is missing exactly the final
1024 bytes of a 1024-byte file. -/
def engineEx1024 : EngineState :=
  { isTransferring := false, currentFileIndex := 1, totalFiles := 1,
    receivedSize := 0, fileSize := 1024, fileName := "d", buffer := [],
    eofReceived := true, isFinalizing := false,
    eofTimeout := some TimeoutKind.finalizeWait,
    completionCheck := true, receivedFiles := [], successes := 0 }

/-- Counterexample to C2 as stated: EOF has already arrived and the
delayed chunk would make `receivedSize` equal the declared size, but the
chunk is exactly 1024 bytes, so the binary-test intercept
(server.js lines 924–942) discards it and the state is left entirely
unchanged — no finalization, no artifact, no notification, ever. -/
theorem eof_protocol_counterexample :
    engineEx1024.eofReceived = true ∧
    engineEx1024.receivedSize + (List.replicate 1024 7).length
      = engineEx1024.fileSize ∧
    handleMessage engineEx1024 (Msg.chunk (List.replicate 1024 7))
      = engineEx1024 := by
  have hlen : (List.replicate 1024 7).length = 1024 := by
    rw [List.length_replicate]
  refine ⟨rfl, by rw [hlen]; rfl, ?_⟩
  simp only [handleMessage]
  rw [if_pos hlen]

/-- C3: on a completed transfer (`receivedSize ≥ fileSize`, finalize not in
progress, no artifact of that name yet), `finalizeReceivedFile` pushes
exactly one artifact and fires exactly one completion notification, and a
second call is the identity: no second artifact, no second notification
(the duplicate-name lookup returns the artifact just pushed and the
function returns before touching any state). -/
theorem finalize_idempotent (st : EngineState)
    (hfin : st.isFinalizing = false)
    (hmatch : findMatch st.receivedFiles st.fileName = none)
    (hsz : st.fileSize ≤ st.receivedSize) :
    (finalizeReceivedFile st).receivedFiles
      = st.receivedFiles
        ++ [{ name := st.fileName, size := st.receivedSize,
              originalSize := st.fileSize, data := st.buffer.flatten }] ∧
    (finalizeReceivedFile st).successes = st.successes + 1 ∧
    finalizeReceivedFile (finalizeReceivedFile st) = finalizeReceivedFile st := by
  have hnlt : ¬ st.receivedSize < st.fileSize := Nat.not_lt.mpr hsz
  have hres : finalizeReceivedFile st
      = { st with
          buffer := [],
          eofTimeout := none,
          completionCheck := false,
          receivedFiles := st.receivedFiles
            ++ [{ name := st.fileName, size := st.receivedSize,
                  originalSize := st.fileSize, data := st.buffer.flatten }],
          successes := st.successes + 1,
          eofReceived := false,
          isFinalizing := false } := by
    simp [finalizeReceivedFile, hfin, hmatch, hnlt]
  refine ⟨by rw [hres], by rw [hres], ?_⟩
  rw [hres]
  have hm2 : findMatch
      (st.receivedFiles
        ++ [({ name := st.fileName, size := st.receivedSize,
               originalSize := st.fileSize,
               data := st.buffer.flatten } : RecvFile)]) st.fileName
      = some { name := st.fileName, size := st.receivedSize,
               originalSize := st.fileSize, data := st.buffer.flatten } :=
    findMatch_append_self _ _ _ hmatch rfl
  simp [finalizeReceivedFile, hm2]

/-- Witness for C3: the completed 2-byte transfer `engineEx`. -/
theorem finalize_idempotent_witness :
    finalizeReceivedFile (finalizeReceivedFile engineEx)
      = finalizeReceivedFile engineEx ∧
    (finalizeReceivedFile engineEx).successes = engineEx.successes + 1 :=
  let h := finalize_idempotent engineEx (by decide) (by decide) (by decide)
  ⟨h.2.2, h.2.1⟩

end Engine

/-! ## Connection negotiator (src/public/js/webrtc-manager.js)

The `WebRTCManager` state and its operations.  The underlying transport
calls (`pc.createOffer`, `setLocalDescription`, `setRemoteDescription`,
`createAnswer`, rollbacks, `createDataChannel`) are asynchronous and may
throw; their outcomes are supplied by an environment record, so theorems
quantify over every combination of success and failure.  `PC.applied`
records the candidates handed to `pc.addIceCandidate` in call order
(per-candidate errors in the drain loop are caught and logged, which does
not change the call order). -/

namespace Wrtc

inductive ConnState where
  | disconnected
  | connecting
  | connected
  | failed
deriving Repr, DecidableEq

/-- `RTCPeerConnection.signalingState`. -/
inductive Sig where
  | stable
  | haveLocalOffer
  | haveRemoteOffer
  | closed
deriving Repr, DecidableEq

/-- The underlying `RTCPeerConnection`. -/
structure PC where
  signalingState : Sig
  applied : List Nat
deriving Repr, DecidableEq

/-- `RTCDataChannel.readyState`. -/
inductive DcState where
  | connectingDc
  | openDc
  | closingDc
  | closedDc
deriving Repr, DecidableEq

/-- The `WebRTCManager` fields relevant to negotiation and sending.
`sendQueue` holds the ids of queued `sendData` promises. -/
structure WM where
  pc : Option PC
  dc : Option DcState
  isSender : Bool
  sendQueue : List Nat
  isSending : Bool
  iceCandidateQueue : List Nat
  remoteDescriptionSet : Bool
  isCreatingOffer : Bool
  isHandlingOffer : Bool
  isHandlingAnswer : Bool
  connectionState : ConnState
  performanceMonitorInterval : Bool
deriving Repr, DecidableEq

/-- `addIceCandidate` (lines 648–668): without a peer connection the
candidate is dropped with a logged error; before the remote description is
set it is appended to `iceCandidateQueue`; otherwise it is applied. -/
def addIceCandidate (st : WM) (c : Nat) : WM :=
  match st.pc with
  | none => st
  | some pc =>
    if st.remoteDescriptionSet = false then
      { st with iceCandidateQueue := st.iceCandidateQueue ++ [c] }
    else
      { st with pc := some { pc with applied := pc.applied ++ [c] } }

/-- The `while` loop of `processIceCandidateQueue` (lines 680–689):
shift the front candidate and apply it, until the queue is empty. -/
def processIceLoop (pc : PC) : List Nat → PC
  | [] => pc
  | c :: rest => processIceLoop { pc with applied := pc.applied ++ [c] } rest

/-- `processIceCandidateQueue` (lines 673–689).  With a null peer
connection every application attempt throws, is caught, and the loop still
drains the queue. -/
def processIceCandidateQueue (st : WM) : WM :=
  match st.pc with
  | some pc =>
    { st with
      iceCandidateQueue := [],
      pc := some (processIceLoop pc st.iceCandidateQueue) }
  | none => { st with iceCandidateQueue := [] }

/-- `close` (lines 1280–1312).  The second component lists the ids of the
queued `sendData` promises that `close` rejects: the source merely
reassigns `this.sendQueue = []`, so it rejects none. -/
def close (st : WM) : WM × List Nat :=
  ({ st with
      dc := none,
      pc := none,
      sendQueue := [],
      isSending := false,
      iceCandidateQueue := [],
      remoteDescriptionSet := false,
      isCreatingOffer := false,
      isHandlingOffer := false,
      isHandlingAnswer := false,
      connectionState := ConnState.disconnected,
      performanceMonitorInterval := false },
   [])

/-- `sendData` (lines 833–862): reject immediately when the channel is
missing or not open, otherwise enqueue the promise (the asynchronous drain
loop is not modelled here).  The second component lists synchronously
rejected promise ids. -/
def sendData (st : WM) (id : Nat) : WM × List Nat :=
  match st.dc with
  | none => (st, [id])
  | some DcState.openDc => ({ st with sendQueue := st.sendQueue ++ [id] }, [])
  | some _ => (st, [id])

/-- `initializePeerConnection` (lines 65–210): skipped while connecting or
connected; otherwise builds a fresh stable connection; on the sender the
`createDataChannel` call may throw (`err`), leaving `connectionState`
failed. -/
def initializePeerConnection (st : WM) (err : Option String)
    (isSender : Bool) : Except String Unit × WM :=
  if st.connectionState = ConnState.connecting
      ∨ st.connectionState = ConnState.connected then
    (Except.ok (), st)
  else
    let st1 : WM :=
      { st with
        connectionState := ConnState.connecting,
        isSender := isSender,
        pc := some { signalingState := Sig.stable, applied := [] } }
    if isSender then
      match err with
      | some msg => (Except.error msg, { st1 with connectionState := ConnState.failed })
      | none => (Except.ok (), { st1 with dc := some DcState.connectingDc })
    else (Except.ok (), st1)

/-- Outcomes of the transport calls made by `resetConnection` /
`recreateConnection`. -/
structure ResetEnv where
  rollbackLocalRes : Except String Unit
  rollbackRemoteRes : Except String Unit
  recreateInitErr : Option String
deriving Repr

/-- `recreateConnection` (lines 1244–1275): close, then reinitialize with
the remembered role. -/
def recreateConnection (st : WM) (err : Option String) :
    Except String Unit × WM :=
  let wasSender := st.isSender
  initializePeerConnection (close st).1 err wasSender

/-- `resetConnection` (lines 1219–1239): roll back a pending local or
remote description; a rollback error is caught and answered with a full
`recreateConnection` (whose own error propagates). -/
def resetConnection (st : WM) (env : ResetEnv) : Except String Unit × WM :=
  match st.pc with
  | none => (Except.ok (), st)
  | some pc =>
    if pc.signalingState = Sig.haveLocalOffer then
      match env.rollbackLocalRes with
      | Except.ok _ =>
        (Except.ok (), { st with pc := some { pc with signalingState := Sig.stable } })
      | Except.error _ => recreateConnection st env.recreateInitErr
    else if pc.signalingState = Sig.haveRemoteOffer then
      match env.rollbackRemoteRes with
      | Except.ok _ =>
        (Except.ok (), { st with pc := some { pc with signalingState := Sig.stable } })
      | Except.error _ => recreateConnection st env.recreateInitErr
    else (Except.ok (), st)

/-- `forceReset` (lines 767–806): close everything, then reinitialize with
the remembered role (callbacks are saved and restored, not modelled). -/
def forceReset (st : WM) (err : Option String) : Except String Unit × WM :=
  let isSender := st.isSender
  initializePeerConnection (close st).1 err isSender

/-- The SDP-error classification shared by `createOffer` / `handleOffer`
(`error.message.includes(…)` over the five recovery-worthy fragments). -/
def isSdpError (msg : String) : Bool :=
  Engine.strContains msg "SDP does not match"
  || Engine.strContains msg "InvalidModificationError"
  || Engine.strContains msg "BUNDLE group"
  || Engine.strContains msg "max-bundle"
  || Engine.strContains msg "order of m-lines"

/-- The JS message of a property access on a null `this.pc`. -/
def nullPcError : String := "TypeError: Cannot read properties of null"

/-- Outcomes of the transport calls made by `createOffer`. -/
structure OfferEnv where
  initErr : Option String
  reset : ResetEnv
  createOfferRes : Except String Unit
  setLocalRes : Except String Unit
  forceResetInitErr : Option String
  retryCreateOfferRes : Except String Unit
  retrySetLocalRes : Except String Unit
deriving Repr

/-- The `catch` block of `createOffer` (lines 493–521): on an SDP error,
force-reset and retry exactly once; otherwise rethrow. -/
def createOfferCatch (st : WM) (env : OfferEnv) (msg : String) :
    Except String (Option Unit) × WM :=
  if isSdpError msg then
    match forceReset st env.forceResetInitErr with
    | (Except.error m2, st2) => (Except.error m2, st2)
    | (Except.ok _, st2) =>
      match st2.pc with
      | none => (Except.error nullPcError, st2)
      | some pc2 =>
        if pc2.signalingState = Sig.stable then
          match env.retryCreateOfferRes with
          | Except.error m => (Except.error m, st2)
          | Except.ok _ =>
            match env.retrySetLocalRes with
            | Except.error m => (Except.error m, st2)
            | Except.ok _ =>
              (Except.ok (some ()),
               { st2 with pc := some { pc2 with signalingState := Sig.haveLocalOffer } })
        else (Except.ok none, st2)
  else (Except.error msg, st)

/-- The `try` block of `createOffer` (lines 457–492): ensure a fresh
stable connection, create the offer, set it locally; every thrown error is
routed to `createOfferCatch`.  `Except.ok none` models returning
`undefined`. -/
def createOfferBody (st : WM) (env : OfferEnv) :
    Except String (Option Unit) × WM :=
  let step1 : Except String Unit × WM :=
    match st.pc with
    | none => initializePeerConnection st env.initErr st.isSender
    | some pc =>
      if pc.signalingState ≠ Sig.stable then resetConnection st env.reset
      else (Except.ok (), st)
  match step1 with
  | (Except.error msg, st1) => createOfferCatch st1 env msg
  | (Except.ok _, st1) =>
    match st1.pc with
    | none => createOfferCatch st1 env nullPcError
    | some pc =>
      if pc.signalingState = Sig.stable then
        match env.createOfferRes with
        | Except.error msg => createOfferCatch st1 env msg
        | Except.ok _ =>
          match env.setLocalRes with
          | Except.error msg => createOfferCatch st1 env msg
          | Except.ok _ =>
            (Except.ok (some ()),
             { st1 with pc := some { pc with signalingState := Sig.haveLocalOffer } })
      else (Except.ok none, st1)

/-- `createOffer` (lines 449–525): duplicate-suppression guard returning
`undefined`, then the try body with its guard flag set, cleared again in
the `finally`. -/
def createOffer (st : WM) (env : OfferEnv) :
    Except String (Option Unit) × WM :=
  if st.isCreatingOffer then (Except.ok none, st)
  else
    let r := createOfferBody { st with isCreatingOffer := true } env
    (r.1, { r.2 with isCreatingOffer := false })

/-- Outcomes of the transport calls made by `handleOffer`. -/
structure HandleOfferEnv where
  initErr : Option String
  reset : ResetEnv
  stillCreatingAfterWait : Bool
  setRemoteRes : Except String Unit
  createAnswerRes : Except String Unit
  setLocalRes : Except String Unit
  forceResetInitErr : Option String
  retrySetRemoteRes : Except String Unit
  retryCreateAnswerRes : Except String Unit
  retrySetLocalRes : Except String Unit
deriving Repr

/-- The `catch` block of `handleOffer` (lines 575–600): on an SDP error,
force-reset and retry once (note: the retry does not set
`remoteDescriptionSet` and does not drain the candidate queue); otherwise
rethrow. -/
def handleOfferCatch (st : WM) (env : HandleOfferEnv) (msg : String) :
    Except String (Option Unit) × WM :=
  if isSdpError msg then
    match forceReset st env.forceResetInitErr with
    | (Except.error m2, st2) => (Except.error m2, st2)
    | (Except.ok _, st2) =>
      match st2.pc with
      | none => (Except.error nullPcError, st2)
      | some pc2 =>
        match env.retrySetRemoteRes with
        | Except.error m => (Except.error m, st2)
        | Except.ok _ =>
          match env.retryCreateAnswerRes with
          | Except.error m => (Except.error m, st2)
          | Except.ok _ =>
            match env.retrySetLocalRes with
            | Except.error m => (Except.error m, st2)
            | Except.ok _ =>
              (Except.ok (some ()),
               { st2 with pc := some { pc2 with signalingState := Sig.stable } })
  else (Except.error msg, st)

/-- The `try` block of `handleOffer` (lines 541–574): ensure a fresh
stable connection; reject if an own offer creation is still in flight
after a short wait; set the remote description, mark it set, drain the
queued ICE candidates, create and set the answer. -/
def handleOfferBody (st : WM) (env : HandleOfferEnv) :
    Except String (Option Unit) × WM :=
  let step1 : Except String Unit × WM :=
    match st.pc with
    | none => initializePeerConnection st env.initErr st.isSender
    | some pc =>
      if pc.signalingState ≠ Sig.stable then resetConnection st env.reset
      else (Except.ok (), st)
  match step1 with
  | (Except.error msg, st1) => handleOfferCatch st1 env msg
  | (Except.ok _, st1) =>
    if st1.isCreatingOffer && env.stillCreatingAfterWait then
      handleOfferCatch st1 env "Cannot handle offer while creating one"
    else
      match st1.pc with
      | none => handleOfferCatch st1 env nullPcError
      | some pc =>
        match env.setRemoteRes with
        | Except.error msg => handleOfferCatch st1 env msg
        | Except.ok _ =>
          let st2 : WM :=
            { st1 with
              pc := some { pc with signalingState := Sig.haveRemoteOffer },
              remoteDescriptionSet := true }
          let st3 := processIceCandidateQueue st2
          match env.createAnswerRes with
          | Except.error msg => handleOfferCatch st3 env msg
          | Except.ok _ =>
            match env.setLocalRes with
            | Except.error msg => handleOfferCatch st3 env msg
            | Except.ok _ =>
              let pcFinal := processIceLoop
                { pc with signalingState := Sig.haveRemoteOffer }
                st1.iceCandidateQueue
              (Except.ok (some ()),
               { st3 with pc := some { pcFinal with signalingState := Sig.stable } })

/-- `handleOffer` (lines 532–604): duplicate-suppression guard that throws
`"Already handling an offer"`, then the try body with the guard flag set,
cleared again in the `finally`. -/
def handleOffer (st : WM) (env : HandleOfferEnv) :
    Except String (Option Unit) × WM :=
  if st.isHandlingOffer then (Except.error "Already handling an offer", st)
  else
    let r := handleOfferBody { st with isHandlingOffer := true } env
    (r.1, { r.2 with isHandlingOffer := false })

/-- Outcome of the transport call made by `handleAnswer`. -/
structure AnswerEnv where
  setRemoteRes : Except String Unit
deriving Repr

/-- The `try` block of `handleAnswer` (lines 619–635): require a peer
connection in `have-local-offer`, set the remote description, mark it set,
drain the queued ICE candidates. -/
def handleAnswerBody (st : WM) (env : AnswerEnv) : Except String Unit × WM :=
  match st.pc with
  | none => (Except.error "No peer connection to handle answer", st)
  | some pc =>
    if pc.signalingState ≠ Sig.haveLocalOffer then
      (Except.error "Cannot handle answer in this state", st)
    else
      match env.setRemoteRes with
      | Except.error msg => (Except.error msg, st)
      | Except.ok _ =>
        (Except.ok (),
         processIceCandidateQueue
           { st with
             pc := some { pc with signalingState := Sig.stable },
             remoteDescriptionSet := true })

/-- `handleAnswer` (lines 610–642): duplicate-suppression guard that
throws, then the try body with the guard flag set, cleared in the
`finally` (the catch only rethrows). -/
def handleAnswer (st : WM) (env : AnswerEnv) : Except String Unit × WM :=
  if st.isHandlingAnswer then (Except.error "Already handling an answer", st)
  else
    let r := handleAnswerBody { st with isHandlingAnswer := true } env
    (r.1, { r.2 with isHandlingAnswer := false })

theorem processIceLoop_eq (q : List Nat) :
    ∀ pc : PC, processIceLoop pc q = { pc with applied := pc.applied ++ q } := by
  induction q with
  | nil => intro pc; simp [processIceLoop]
  | cons c rest ih =>
    intro pc
    rw [processIceLoop, ih]
    simp

/-- C7: a candidate arriving before the remote description is set is
appended (FIFO) to `iceCandidateQueue` and not applied to the connection;
draining applies the queued candidates in enqueue order and empties the
queue; the success path of `handleOffer` sets the remote description and
then drains the queue in enqueue order (`handleAnswer` does the same). -/
theorem ice_candidate_queueing :
    (∀ (st : WM) (pc : PC) (c : Nat),
      st.pc = some pc → st.remoteDescriptionSet = false →
      addIceCandidate st c
        = { st with iceCandidateQueue := st.iceCandidateQueue ++ [c] }) ∧
    (∀ (pc : PC) (q : List Nat),
      (processIceLoop pc q).applied = pc.applied ++ q) ∧
    (∀ (st : WM) (pc : PC),
      st.pc = some pc →
      (processIceCandidateQueue st).iceCandidateQueue = [] ∧
      (processIceCandidateQueue st).pc
        = some { pc with applied := pc.applied ++ st.iceCandidateQueue }) ∧
    (∀ (st : WM) (pc : PC) (env : HandleOfferEnv),
      st.pc = some pc → pc.signalingState = Sig.stable →
      st.isHandlingOffer = false → st.isCreatingOffer = false →
      env.setRemoteRes = Except.ok () →
      env.createAnswerRes = Except.ok () →
      env.setLocalRes = Except.ok () →
      (handleOffer st env).2.remoteDescriptionSet = true ∧
      (handleOffer st env).2.iceCandidateQueue = [] ∧
      (handleOffer st env).2.pc
        = some { signalingState := Sig.stable,
                 applied := pc.applied ++ st.iceCandidateQueue }) ∧
    (∀ (st : WM) (pc : PC) (env : AnswerEnv),
      st.pc = some pc → pc.signalingState = Sig.haveLocalOffer →
      st.isHandlingAnswer = false →
      env.setRemoteRes = Except.ok () →
      (handleAnswer st env).2.remoteDescriptionSet = true ∧
      (handleAnswer st env).2.iceCandidateQueue = [] ∧
      (handleAnswer st env).2.pc
        = some { signalingState := Sig.stable,
                 applied := pc.applied ++ st.iceCandidateQueue }) := by
  refine ⟨?_, ?_, ?_, ?_, ?_⟩
  · intro st pc c hpc hrds
    simp [addIceCandidate, hpc, hrds]
  · intro pc q
    rw [processIceLoop_eq]
  · intro st pc hpc
    simp [processIceCandidateQueue, hpc, processIceLoop_eq]
  · intro st pc env hpc hsig hho hco hsr hca hsl
    have hne : pc.signalingState ≠ Sig.stable → False := fun hc => hc hsig
    refine ⟨?_, ?_, ?_⟩ <;>
      simp [handleOffer, handleOfferBody, processIceCandidateQueue,
        processIceLoop_eq, hpc, hsig, hho, hco, hsr, hca, hsl]
  · intro st pc env hpc hsig hha hsr
    refine ⟨?_, ?_, ?_⟩ <;>
      simp [handleAnswer, handleAnswerBody, processIceCandidateQueue,
        processIceLoop_eq, hpc, hsig, hha, hsr]

/-- Witness for C7 at a concrete manager state. -/
theorem ice_candidate_queueing_witness :
    addIceCandidate
      { pc := some { signalingState := Sig.stable, applied := [] },
        dc := none, isSender := false, sendQueue := [], isSending := false,
        iceCandidateQueue := [4], remoteDescriptionSet := false,
        isCreatingOffer := false, isHandlingOffer := false,
        isHandlingAnswer := false, connectionState := ConnState.connecting,
        performanceMonitorInterval := false } 9
      = { pc := some { signalingState := Sig.stable, applied := [] },
          dc := none, isSender := false, sendQueue := [], isSending := false,
          iceCandidateQueue := [4, 9], remoteDescriptionSet := false,
          isCreatingOffer := false, isHandlingOffer := false,
          isHandlingAnswer := false, connectionState := ConnState.connecting,
          performanceMonitorInterval := false } ∧
    (processIceLoop { signalingState := Sig.stable, applied := [1] } [4, 9]).applied
      = [1] ++ [4, 9] :=
  ⟨ice_candidate_queueing.1 _ _ 9 rfl rfl,
   ice_candidate_queueing.2.1 { signalingState := Sig.stable, applied := [1] } [4, 9]⟩

/-- C8: each of `createOffer`, `handleOffer`, `handleAnswer` clears its
in-flight guard flag on every exit path — normal return, `undefined`
return, or any thrown transport error (the flag is set before the `try`
and cleared in the `finally`, so no invocation that acquired its guard can
terminate with the flag left set; the early duplicate-suppression exits
never set the flag). -/
theorem guard_flags_cleared :
    (∀ (st : WM) (env : OfferEnv), st.isCreatingOffer = false →
      (createOffer st env).2.isCreatingOffer = false) ∧
    (∀ (st : WM) (env : HandleOfferEnv), st.isHandlingOffer = false →
      (handleOffer st env).2.isHandlingOffer = false) ∧
    (∀ (st : WM) (env : AnswerEnv), st.isHandlingAnswer = false →
      (handleAnswer st env).2.isHandlingAnswer = false) := by
  refine ⟨?_, ?_, ?_⟩
  · intro st env h
    simp [createOffer, h]
  · intro st env h
    simp [handleOffer, h]
  · intro st env h
    simp [handleAnswer, h]

/-- A failing environment for the witness: every transport call throws. -/
def offerEnvAllFail : OfferEnv :=
  { initErr := some "boom",
    reset := { rollbackLocalRes := Except.error "boom",
               rollbackRemoteRes := Except.error "boom",
               recreateInitErr := some "boom" },
    createOfferRes := Except.error "SDP does not match",
    setLocalRes := Except.error "boom",
    forceResetInitErr := some "boom",
    retryCreateOfferRes := Except.error "boom",
    retrySetLocalRes := Except.error "boom" }

/-- A fresh manager state with no connection. -/
def wmFresh : WM :=
  { pc := none, dc := none, isSender := true, sendQueue := [],
    isSending := false, iceCandidateQueue := [],
    remoteDescriptionSet := false, isCreatingOffer := false,
    isHandlingOffer := false, isHandlingAnswer := false,
    connectionState := ConnState.disconnected,
    performanceMonitorInterval := false }

/-- Witness for C8: even under an environment where every transport call
throws, the guard flags end cleared. -/
theorem guard_flags_cleared_witness :
    (createOffer wmFresh offerEnvAllFail).2.isCreatingOffer = false ∧
    (handleAnswer wmFresh { setRemoteRes := Except.error "boom" }).2.isHandlingAnswer
      = false :=
  ⟨guard_flags_cleared.1 wmFresh offerEnvAllFail rfl,
   guard_flags_cleared.2.2 wmFresh { setRemoteRes := Except.error "boom" } rfl⟩

/-- A manager mid-transfer: data channel open, one pending `sendData`
promise in the queue, the performance monitor running. -/
def wmMidTransfer : WM :=
  { pc := some { signalingState := Sig.stable, applied := [] },
    dc := some DcState.openDc, isSender := true,
    sendQueue := [7], isSending := true, iceCandidateQueue := [3],
    remoteDescriptionSet := true, isCreatingOffer := false,
    isHandlingOffer := false, isHandlingAnswer := false,
    connectionState := ConnState.connected,
    performanceMonitorInterval := true }

/-- Counterexample to C9 as stated: with one entry still in the send
queue, `close` rejects no queued promise at all — it merely reassigns
`this.sendQueue = []`, abandoning the pending promise. -/
theorem close_counterexample :
    wmMidTransfer.sendQueue = [7] ∧
    ¬ (∀ id ∈ wmMidTransfer.sendQueue, id ∈ (close wmMidTransfer).2) := by
  refine ⟨rfl, ?_⟩
  intro hall
  have h7 := hall 7 (by decide)
  simp [close] at h7

/-- C9 (amended): `close` empties the send queue and resets the sending
flag — dropping every queued entry without resolving or rejecting its
promise — clears the ICE-candidate queue and all guard flags, and clears
the performance-monitoring interval, the only timer handle the manager
tracks; it rejects no queued promise. -/
theorem close_clears_queue (st : WM) :
    (close st).1.sendQueue = [] ∧
    (close st).1.isSending = false ∧
    (close st).1.iceCandidateQueue = [] ∧
    (close st).1.performanceMonitorInterval = false ∧
    (close st).1.isCreatingOffer = false ∧
    (close st).1.isHandlingOffer = false ∧
    (close st).1.isHandlingAnswer = false ∧
    (close st).2 = [] :=
  ⟨rfl, rfl, rfl, rfl, rfl, rfl, rfl, rfl⟩

end Wrtc

end P2P
